import Mathlib

/-!
Shallow embedding of `colossalai/tensor/d_tensor/d_tensor.py`.

The file under verification defines the `DTensor` wrapper (construction,
`layout_convert`, `__torch_function__` delegation, `to`, `to_local`,
`to_global`), the helpers `distribute_tensor`, `distribute_module`,
`convert_layout_to_sharding_spec` and `construct_default_sharding_spec`.

External collaborators that the file imports but whose code is not part of
the sources (`Layout`, `ShardingSpec`, `DeviceMesh`,
`ShapeConsistencyManager.apply_for_autoparallel_runtime`, the
`shape_consistency.to_global` helper, and the pieces of the torch library
that the file relies on: `tree_map`, `nn.Module` parameter registration,
`nn.Parameter`) are modelled here as explicit Lean definitions; each such
definition carries a doc comment saying what it models and where the
behaviour comes from.

Python methods that mutate `self` are embedded as functions returning the
updated value; methods that can raise return `Except PyErr`.
-/

/-- A tensor shape: the ordered sequence of dimension extents. -/
abbrev Shape := List Nat

/-- Modelled from the spec (section 3): a device mesh is an immutable
N-dimensional grid; only its `shape` is consumed by the code under
verification.  Mesh identity is structural in this model. -/
structure DeviceMesh where
  shape : Shape
deriving DecidableEq, Repr

/-- Modelled from the spec (section 3): a `ShardingSpec` (PartitionSpec)
associates logical tensor dimensions with the mesh axes along which they are
split.  `dim_partition_dict` is the Python dict `{dim: [mesh axes]}`
rendered as an association list.  `entire_shape` is `Option` because the
`Layout` feeding it may not have had its shape resolved yet. -/
structure ShardingSpec where
  device_mesh : DeviceMesh
  entire_shape : Option Shape
  dim_partition_dict : List (Nat × List Nat)
deriving DecidableEq, Repr

/-- Modelled from the spec (section 4.2): the four per-mesh-axis primitive
moves the ResidencyPlanner can emit.  Each records the mesh axis it acts
on, the logical dimensions involved, and the size of the communication
group (the extent of the mesh axis). -/
inductive PlanPrim where
  | split (meshAxis dim gsize : Nat)
  | gather (meshAxis dim gsize : Nat)
  | allToAll (meshAxis oldDim newDim gsize : Nat)
deriving DecidableEq, Repr

/-- A torch tensor value.  `base` is a leaf tensor with a shape, an element
type, a device (both encoded as numbers) and an opaque payload identifier;
`prim` is the result of applying a planner primitive; `cast` is the result
of `torch.Tensor.to` (dtype/device migration). -/
inductive Tensor where
  | base (shape : Shape) (dtype : Nat) (device : Nat) (payload : Nat)
  | prim (p : PlanPrim) (t : Tensor)
  | cast (dtype : Nat) (device : Nat) (t : Tensor)
deriving DecidableEq, Repr

/-- Shape of a tensor value.  Planner primitives transform the shape as the
spec describes (section 4.2): a split divides the affected logical
dimension by the group size, a gather multiplies it, an all-to-all
un-shards the old dimension and shards the new one. -/
def Tensor.shape : Tensor → Shape
  | .base s _ _ _ => s
  | .cast _ _ t => t.shape
  | .prim (.split _ d g) t => t.shape.set d (t.shape.getD d 0 / g)
  | .prim (.gather _ d g) t => t.shape.set d (t.shape.getD d 0 * g)
  | .prim (.allToAll _ od nd g) t =>
      (t.shape.set od (t.shape.getD od 0 * g)).set nd
        (((t.shape.set od (t.shape.getD od 0 * g)).getD nd 0) / g)

/-- Element type of a tensor value; only `cast` changes it. -/
def Tensor.dtype : Tensor → Nat
  | .base _ d _ _ => d
  | .cast d _ _ => d
  | .prim _ t => t.dtype

/-- Device of a tensor value; only `cast` changes it. -/
def Tensor.device : Tensor → Nat
  | .base _ _ d _ => d
  | .cast _ d _ => d
  | .prim _ t => t.device

/-- Arguments of `torch.Tensor.to`: an optional new element type and an
optional new device. -/
structure ToArgs where
  dtype : Option Nat
  device : Option Nat
deriving DecidableEq, Repr

/-- Modelled from torch: `Tensor.to(*args)` casts/moves a tensor, leaving
unspecified attributes unchanged. -/
def Tensor.to (t : Tensor) (a : ToArgs) : Tensor :=
  .cast (a.dtype.getD t.dtype) (a.device.getD t.device) t

/-- The Python exceptions the embedded operations can raise. -/
inductive PyErr where
  | incompatibleSpec
  | keyError
  | noneNotCallable
  | typeErrorBadParamData
deriving DecidableEq, Repr

/-- Modelled from the spec (section 4.2): the logical dimension (if any)
that claims a given mesh axis in a spec. -/
def axisAssignment (spec : ShardingSpec) (axis : Nat) : Option Nat :=
  (spec.dim_partition_dict.find? (fun q => q.2.contains axis)).map (fun q => q.1)

/-- Modelled from the spec (section 4.2): the primitive move the planner
emits for one mesh axis (`none` when the assignment is identical in source
and target). -/
def axisPrim (source target : ShardingSpec) (axis : Nat) : Option PlanPrim :=
  let g := source.device_mesh.shape.getD axis 1
  match axisAssignment source axis, axisAssignment target axis with
  | none, none => none
  | none, some d => some (.split axis d g)
  | some d, none => some (.gather axis d g)
  | some d1, some d2 => if d1 = d2 then none else some (.allToAll axis d1 d2 g)

/-- Modelled from the spec: the ResidencyPlanner contract `reshard`
(section 4.2), the body of `ShapeConsistencyManager.
apply_for_autoparallel_runtime`, which is imported by the file under
verification but whose code is not part of the sources.  It fails with
`IncompatibleSpecError` when the specs disagree on global shape or mesh,
and otherwise applies one primitive per differing mesh axis, in ascending
mesh-axis order, to a running local tensor value. -/
def reshard (local_tensor : Tensor) (source target : ShardingSpec) :
    Except PyErr Tensor :=
  if source.entire_shape ≠ target.entire_shape ∨ source.device_mesh ≠ target.device_mesh then
    .error .incompatibleSpec
  else
    .ok ((List.range source.device_mesh.shape.length).foldl
      (fun acc axis =>
        match axisPrim source target axis with
        | none => acc
        | some p => .prim p acc) local_tensor)

/-- Modelled from the spec: `ShapeConsistencyManager.
apply_for_autoparallel_runtime` is the planner entry point the file calls;
the manager is stateless, so it is the `reshard` contract itself. -/
def apply_for_autoparallel_runtime (local_tensor : Tensor)
    (source target : ShardingSpec) : Except PyErr Tensor :=
  reshard local_tensor source target

namespace shape_consistency

/-- Modelled from the spec (section 4.2): the imported
`colossalai.tensor.shape_consistency.to_global` helper, defined as a
reshard from the current spec to the fully replicated spec over the same
shape and mesh. -/
def to_global (local_tensor : Tensor) (spec : ShardingSpec) : Except PyErr Tensor :=
  reshard local_tensor spec
    { device_mesh := spec.device_mesh, entire_shape := spec.entire_shape,
      dim_partition_dict := [] }

end shape_consistency

/-- Modelled from the spec (section 3): the inner sharding-spec object a
`Layout` carries; only its `dim_partition_dict` is consumed by the file
under verification. -/
structure LayoutShardingSpec where
  dim_partition_dict : List (Nat × List Nat)
deriving DecidableEq, Repr

/-- Modelled from the spec (section 3): `Layout`, the declarative wrapper
with deferred `entire_shape` resolution, plus the `device_type` attribute
that `DTensor.to` writes. -/
structure Layout where
  device_mesh : DeviceMesh
  sharding_spec : LayoutShardingSpec
  entire_shape : Option Shape
  device_type : Nat
deriving DecidableEq, Repr

/-- `convert_layout_to_sharding_spec` from the source file: builds a
`ShardingSpec` out of the layout's mesh, shape and partition dict. -/
def convert_layout_to_sharding_spec (layout : Layout) : ShardingSpec :=
  { device_mesh := layout.device_mesh,
    entire_shape := layout.entire_shape,
    dim_partition_dict := layout.sharding_spec.dim_partition_dict }

/-- `construct_default_sharding_spec` from the source file: the default
(fully replicated) spec over the tensor's shape, with an empty partition
dict. -/
def construct_default_sharding_spec (tensor : Tensor) (device_mesh : DeviceMesh) :
    ShardingSpec :=
  { device_mesh := device_mesh, entire_shape := some tensor.shape,
    dim_partition_dict := [] }

/-- The `DTensor` state: the fields `__init__` assigns.  Methods that
mutate `self` are embedded as functions returning the updated value. -/
structure DTensor where
  local_tensor : Tensor
  data_type : Nat
  entire_shape : Shape
  dist_layout : Layout
deriving DecidableEq, Repr

/-- `DTensor._apply_layout` from the source file, parameterised by the
fields of `self` it reads (it is only called from `__init__`): plans from
the default fully replicated spec over the current local tensor to the
spec derived from the stored layout, and returns the planner's result. -/
def DTensor.apply_layout (local_tensor : Tensor) (dist_layout : Layout) :
    Except PyErr Tensor :=
  let source_spec := construct_default_sharding_spec local_tensor dist_layout.device_mesh
  let target_spec := convert_layout_to_sharding_spec dist_layout
  apply_for_autoparallel_runtime local_tensor source_spec target_spec

/-- `DTensor.__init__` from the source file: stores the local tensor, its
dtype and shape, resolves the layout's `entire_shape` when it is `None`,
stores the layout, and runs `_apply_layout`, which replaces the stored
local tensor with the planner's result. -/
def DTensor.make (local_tensor : Tensor) (dist_layout : Layout) :
    Except PyErr DTensor :=
  let dist_layout :=
    if dist_layout.entire_shape = none then
      { dist_layout with entire_shape := some local_tensor.shape }
    else dist_layout
  match DTensor.apply_layout local_tensor dist_layout with
  | .ok sharded =>
      .ok { local_tensor := sharded, data_type := local_tensor.dtype,
            entire_shape := local_tensor.shape, dist_layout := dist_layout }
  | .error e => .error e

/-- `DTensor.layout_convert` from the source file: converts the stored and
the target layout to sharding specs, invokes the planner on the stored
local tensor, and replaces the stored local tensor and layout. -/
def DTensor.layout_convert (dt : DTensor) (target_layout : Layout) :
    Except PyErr DTensor :=
  let source_spec := convert_layout_to_sharding_spec dt.dist_layout
  let target_spec := convert_layout_to_sharding_spec target_layout
  match apply_for_autoparallel_runtime dt.local_tensor source_spec target_spec with
  | .ok t => .ok { dt with local_tensor := t, dist_layout := target_layout }
  | .error e => .error e

/-- The `DTensor.device_mesh` property from the source file. -/
def DTensor.device_mesh (dt : DTensor) : DeviceMesh :=
  dt.dist_layout.device_mesh

/-- The `DTensor.sharding_spec` property from the source file. -/
def DTensor.sharding_spec (dt : DTensor) : LayoutShardingSpec :=
  dt.dist_layout.sharding_spec

/-- `DTensor.to` from the source file: casts/moves the local tensor,
refreshes the cached `data_type` from the new local tensor, and writes the
new device into the layout's `device_type`.  The Python method returns
`self`; the embedding returns the updated value. -/
def DTensor.to (dt : DTensor) (a : ToArgs) : DTensor :=
  let local_tensor := dt.local_tensor.to a
  { dt with
      local_tensor := local_tensor,
      data_type := local_tensor.dtype,
      dist_layout := { dt.dist_layout with device_type := local_tensor.device } }

/-- `DTensor.to_local` from the source file: returns the local tensor. -/
def DTensor.to_local (dt : DTensor) : Tensor :=
  dt.local_tensor

/-- `DTensor.to_global` from the source file: returns
`to_global(self.local_tensor, convert_layout_to_sharding_spec(self.dist_layout))`.
The method performs no assignment; the embedding returns the (unchanged)
state together with the result. -/
def DTensor.to_global (dt : DTensor) : DTensor × Except PyErr Tensor :=
  (dt, shape_consistency.to_global dt.local_tensor
        (convert_layout_to_sharding_spec dt.dist_layout))

/-- `distribute_tensor` from the source file: wraps the local tensor in a
`DTensor` with the given layout. -/
def distribute_tensor (local_tensor : Tensor) (dist_layout : Layout) :
    Except PyErr DTensor :=
  DTensor.make local_tensor dist_layout

/-- A Python value as it can appear among the arguments of an operation
routed through `__torch_function__`, or as the result of a
`partition_fn`: a plain tensor, a `DTensor`, a `Layout` object, or any
other Python object (represented by an opaque identifier). -/
inductive PyVal where
  | tensorV (t : Tensor)
  | dtV (d : DTensor)
  | layoutV (l : Layout)
  | obj (n : Nat)
deriving DecidableEq, Repr

/-- The `filter_arg` closure inside `DTensor.__torch_function__`: a
`DTensor` argument is replaced by its local tensor, every other value is
returned unchanged. -/
def filter_arg : PyVal → PyVal
  | .dtV d => .tensorV d.local_tensor
  | v => v

mutual
/-- A Python argument pytree: a leaf value or a container node.  Dict
containers are represented by the tree of their values (`tree_map` only
touches leaves, never keys). -/
inductive PyTree where
  | leaf : PyVal → PyTree
  | node : PyTreeList → PyTree
deriving DecidableEq, Repr
/-- The children of a pytree container node. -/
inductive PyTreeList where
  | nil : PyTreeList
  | cons : PyTree → PyTreeList → PyTreeList
deriving DecidableEq, Repr
end

mutual
/-- Modelled from torch: `torch.utils._pytree.tree_map`, applying a
function to every leaf of a pytree. -/
def tree_map (f : PyVal → PyVal) : PyTree → PyTree
  | .leaf v => .leaf (f v)
  | .node cs => .node (tree_map_list f cs)
/-- `tree_map` on the children of a container node. -/
def tree_map_list (f : PyVal → PyVal) : PyTreeList → PyTreeList
  | .nil => .nil
  | .cons c cs => .cons (tree_map f c) (tree_map_list f cs)
end

/-- `DTensor.__torch_function__` from the source file: defaults `kwargs`
to the empty dict, unwraps every `DTensor` among the positional and
keyword arguments with `tree_map filter_arg`, calls the underlying
function, and returns its result unchanged.  `types` is the (unused)
tuple of involved types. -/
def DTensor.torch_function (func : PyTree → PyTree → PyVal) (_types : List Nat)
    (args : PyTree) (kwargs : Option PyTree) : PyVal :=
  let kw := kwargs.getD (.node .nil)
  func (tree_map filter_arg args) (tree_map filter_arg kw)

/-- A value stored in a module's `_parameters` dict: either a plain
tensor/Parameter or a `DTensor` instance (`isinstance(param, DTensor)`
distinguishes exactly these two cases). -/
inductive ParamVal where
  | plain (t : Tensor)
  | dt (d : DTensor)
deriving DecidableEq, Repr

/-- The `isinstance(param, DTensor)` test. -/
def ParamVal.isDT : ParamVal → Bool
  | .dt _ => true
  | .plain _ => false

/-- Modelled from torch: the `.data` attribute of a parameter value. -/
def ParamVal.data : ParamVal → Tensor
  | .plain t => t
  | .dt d => d.local_tensor

/-- Modelled from torch: `torch.nn.Parameter(data)`.  The data must be a
tensor (a plain tensor or a `DTensor`, which subclasses `torch.Tensor`);
any other object raises `TypeError`.  The result is a `Parameter`, which
is not a `DTensor` instance, so it is stored as a plain value. -/
def mkParameter : PyVal → Except PyErr ParamVal
  | .tensorV t => .ok (.plain t)
  | .dtV d => .ok (.plain d.local_tensor)
  | .layoutV _ => .error .typeErrorBadParamData
  | .obj _ => .error .typeErrorBadParamData

mutual
/-- Modelled from torch: an `nn.Module` as the file under verification
uses it — its `_parameters` dict (name to parameter value) and its
`_modules` dict (name to submodule). -/
inductive PyModule where
  | mk : List (String × ParamVal) → SubModules → PyModule
deriving DecidableEq, Repr
/-- The `_modules` dict of an `nn.Module`. -/
inductive SubModules where
  | nil : SubModules
  | cons : String → PyModule → SubModules → SubModules
deriving DecidableEq, Repr
end

/-- Name joining used by `named_parameters`: the member name is prefixed
with the owning module's dotted path when that path is nonempty. -/
def joinName (pfx name : String) : String :=
  if pfx = "" then name else pfx ++ "." ++ name

mutual
/-- Modelled from torch: `nn.Module.named_parameters()` — the module's own
parameters first, then the parameters of each submodule in registration
order, depth first, with dotted name prefixes. -/
def PyModule.named_parameters : PyModule → String → List (String × ParamVal)
  | .mk ps subs, pfx =>
      ps.map (fun q => (joinName pfx q.1, q.2)) ++ SubModules.named_parameters subs pfx
/-- `named_parameters` over a `_modules` dict. -/
def SubModules.named_parameters : SubModules → String → List (String × ParamVal)
  | .nil, _ => []
  | .cons n m rest, pfx =>
      m.named_parameters (joinName pfx n) ++ SubModules.named_parameters rest pfx
end

/-- Python dict assignment `d[k] = v` on an association list: replaces the
value of an existing key, otherwise appends the new binding. -/
def setAssoc (l : List (String × ParamVal)) (k : String) (v : ParamVal) :
    List (String × ParamVal) :=
  if l.any (fun q => q.1 = k) then
    l.map (fun q => if q.1 = k then (k, v) else q)
  else l ++ [(k, v)]

/-- Modelled from torch: `setattr(module, name, value)` for a `Parameter`
value.  `nn.Module.__setattr__` routes Parameters through
`register_parameter`, which raises `KeyError` when the name contains a
dot or is empty, and otherwise stores the value in the module's own
`_parameters` dict. -/
def PyModule.setParam (m : PyModule) (name : String) (v : ParamVal) :
    Except PyErr PyModule :=
  if name.toList.contains '.' then .error .keyError
  else if name = "" then .error .keyError
  else
    match m with
    | .mk ps subs => .ok (.mk (setAssoc ps name v) subs)

/-- The body of the `for name, param in module.named_parameters()` loop of
`distribute_module`, iterating over the (snapshot of the) named
parameters: parameters that are already `DTensor`s are skipped; otherwise
`partition_fn(name, param.data)` is called (calling `None` raises
`TypeError`), wrapped in `torch.nn.Parameter`, and stored with
`setattr(module, name, ...)`. -/
def distributeLoop (partition_fn : Option (String → Tensor → PyVal)) :
    PyModule → List (String × ParamVal) → Except PyErr PyModule
  | m, [] => .ok m
  | m, (name, p) :: rest =>
      if p.isDT then distributeLoop partition_fn m rest
      else
        match partition_fn with
        | none => .error .noneNotCallable
        | some f =>
            match mkParameter (f name p.data) with
            | .error e => .error e
            | .ok v =>
                match m.setParam name v with
                | .error e => .error e
                | .ok m2 => distributeLoop partition_fn m2 rest

/-- `distribute_module` from the source file: iterates over
`module.named_parameters()` and runs the replacement loop; the
`partition_fn` argument defaults to `None` in the source. -/
def distribute_module (m : PyModule)
    (partition_fn : Option (String → Tensor → PyVal)) : Except PyErr PyModule :=
  distributeLoop partition_fn m (m.named_parameters "")

mutual
/-- The module-distribution operation exactly as claim C2 (and spec section
4.4) words it, for comparison with `distribute_module`: every learnable
parameter that is not already a `DTensor` is replaced, in the module that
owns it, by a new `DTensor` built from the parameter's current value and
the `Layout` returned by `partition_fn(parameter_name, parameter_value)`;
`DTensor` parameters are left untouched.  This definition follows the
claim's words, not the source. -/
def distribute_module_claim (partition_fn : String → Tensor → Layout)
    (pfx : String) : PyModule → Except PyErr PyModule
  | .mk ps subs =>
      match claimParams partition_fn pfx ps, claimSubs partition_fn pfx subs with
      | .ok ps2, .ok subs2 => .ok (.mk ps2 subs2)
      | .error e, _ => .error e
      | .ok _, .error e => .error e
/-- Parameter replacement of `distribute_module_claim` on one `_parameters`
dict. -/
def claimParams (partition_fn : String → Tensor → Layout) (pfx : String) :
    List (String × ParamVal) → Except PyErr (List (String × ParamVal))
  | [] => .ok []
  | (n, p) :: rest =>
      match (if p.isDT then Except.ok p
             else
               match DTensor.make p.data (partition_fn (joinName pfx n) p.data) with
               | .ok d => .ok (.dt d)
               | .error e => .error e),
            claimParams partition_fn pfx rest with
      | .ok v, .ok vs => .ok ((n, v) :: vs)
      | .error e, _ => .error e
      | .ok _, .error e => .error e
/-- `distribute_module_claim` over a `_modules` dict. -/
def claimSubs (partition_fn : String → Tensor → Layout) (pfx : String) :
    SubModules → Except PyErr SubModules
  | .nil => .ok .nil
  | .cons n m rest =>
      match distribute_module_claim partition_fn (joinName pfx n) m,
            claimSubs partition_fn pfx rest with
      | .ok m2, .ok rest2 => .ok (.cons n m2 rest2)
      | .error e, _ => .error e
      | .ok _, .error e => .error e
end

/-- Specification-side helper: the effect of one iteration of the
`distribute_module` loop on the `_parameters` dict of a flat module, used
to state what the loop computes. -/
def flatUpd (f : String → Tensor → Tensor) (c : List (String × ParamVal))
    (q : String × ParamVal) : List (String × ParamVal) :=
  if q.2.isDT then c else setAssoc c q.1 (.plain (f q.1 q.2.data))

theorem axisPrim_self (S : ShardingSpec) (axis : Nat) : axisPrim S S axis = none := by
  unfold axisPrim
  cases h : axisAssignment S axis <;> simp [h]

theorem foldl_axisPrim_self (S : ShardingSpec) (l : List Nat) (t : Tensor) :
    l.foldl (fun acc axis =>
      match axisPrim S S axis with
      | none => acc
      | some p => .prim p acc) t = t := by
  induction l generalizing t with
  | nil => rfl
  | cons a l ih => simp [axisPrim_self, ih]

theorem reshard_self (t : Tensor) (S : ShardingSpec) : reshard t S S = Except.ok t := by
  unfold reshard
  simp [foldl_axisPrim_self]

/-- C5: converting a `DTensor` to a layout equal to its current layout
leaves the local shard (indeed the whole `DTensor`) unchanged: both layouts
convert to the same sharding spec, so the planner emits the no-op primitive
on every mesh axis and returns the local tensor untouched. -/
theorem layout_convert_current_layout_noop (dt : DTensor) :
    dt.layout_convert dt.dist_layout = Except.ok dt := by
  unfold DTensor.layout_convert apply_for_autoparallel_runtime
  dsimp only
  rw [reshard_self]

/-- C6: `to_global` leaves the `DTensor` unchanged, returns exactly
`to_global(local_tensor, convert_layout_to_sharding_spec(dist_layout))` —
the reshard of the current local shard from the current spec to the fully
replicated spec over the same shape and mesh — and succeeds for every
current layout. -/
theorem to_global_reconstructs_and_preserves_state (dt : DTensor) :
    (dt.to_global).1 = dt ∧
    (dt.to_global).2 = shape_consistency.to_global dt.local_tensor
        (convert_layout_to_sharding_spec dt.dist_layout) ∧
    ∃ g, (dt.to_global).2 = Except.ok g := by
  refine ⟨rfl, rfl, ?_⟩
  unfold DTensor.to_global shape_consistency.to_global reshard
  simp

/-- C7: `DTensor.to` replaces the local shard by the cast/moved local
shard, refreshes the cached element type and the layout's device metadata,
and leaves the partition structure — the layout's `dim_partition_dict`
(inside `sharding_spec`), its device mesh and its `entire_shape` — as well
as the wrapper's own cached global shape unchanged. -/
theorem to_updates_only_shard_and_cached_metadata (dt : DTensor) (a : ToArgs) :
    (dt.to a).local_tensor = dt.local_tensor.to a ∧
    (dt.to a).data_type = (dt.local_tensor.to a).dtype ∧
    (dt.to a).dist_layout.device_type = (dt.local_tensor.to a).device ∧
    (dt.to a).dist_layout.sharding_spec.dim_partition_dict
      = dt.dist_layout.sharding_spec.dim_partition_dict ∧
    (dt.to a).dist_layout.device_mesh = dt.dist_layout.device_mesh ∧
    (dt.to a).dist_layout.entire_shape = dt.dist_layout.entire_shape ∧
    (dt.to a).entire_shape = dt.entire_shape :=
  ⟨rfl, rfl, rfl, rfl, rfl, rfl, rfl⟩

/-- C4: `layout_convert` converts the stored layout and the target layout
to sharding specs, invokes the planner on the current local shard with
those specs, and — when the planner succeeds — replaces exactly the stored
local shard and the stored layout with the planner's result and the new
layout (errors are propagated unchanged). -/
theorem layout_convert_invokes_planner_and_updates (dt : DTensor) (target_layout : Layout) :
    dt.layout_convert target_layout =
      Except.map (fun t => { dt with local_tensor := t, dist_layout := target_layout })
        (apply_for_autoparallel_runtime dt.local_tensor
          (convert_layout_to_sharding_spec dt.dist_layout)
          (convert_layout_to_sharding_spec target_layout)) := by
  unfold DTensor.layout_convert
  dsimp only
  cases h : apply_for_autoparallel_runtime dt.local_tensor
      (convert_layout_to_sharding_spec dt.dist_layout)
      (convert_layout_to_sharding_spec target_layout) <;>
    simp [h, Except.map]

/-- C3: every call routed through `__torch_function__` substitutes, for
each `DTensor` among the positional or keyword arguments, the argument's
local shard (all other argument values are passed through unchanged),
forwards the call to the underlying function, and returns that function's
raw result — no rewrapping and no output-layout inference happen. -/
theorem torch_function_unwraps_and_delegates (func : PyTree → PyTree → PyVal)
    (types : List Nat) (args : PyTree) (kwargs : Option PyTree) :
    DTensor.torch_function func types args kwargs =
      func (tree_map filter_arg args)
        (tree_map filter_arg (kwargs.getD (.node .nil))) ∧
    (∀ d : DTensor, filter_arg (.dtV d) = .tensorV d.local_tensor) ∧
    (∀ t : Tensor, filter_arg (.tensorV t) = .tensorV t) ∧
    (∀ l : Layout, filter_arg (.layoutV l) = .layoutV l) ∧
    (∀ n : Nat, filter_arg (.obj n) = .obj n) :=
  ⟨rfl, fun _ => rfl, fun _ => rfl, fun _ => rfl, fun _ => rfl⟩

theorem reshard_ok_of_compat (t : Tensor) (S T : ShardingSpec)
    (h1 : S.entire_shape = T.entire_shape) (h2 : S.device_mesh = T.device_mesh) :
    reshard t S T =
      Except.ok ((List.range S.device_mesh.shape.length).foldl
        (fun acc axis =>
          match axisPrim S T axis with
          | none => acc
          | some p => .prim p acc) t) := by
  unfold reshard
  rw [if_neg]
  simp [h1, h2]

/-- C1: construction builds the default fully replicated source spec —
empty `dim_partition_dict`, the wrapped tensor's current shape, the
layout's mesh — invokes the planner to convert from that default spec to
the spec derived from the (shape-resolved) target layout, and stores the
planner's result as the local shard (alongside the cached dtype, global
shape and resolved layout). -/
theorem dtensor_construction_uses_default_source_spec (t : Tensor) (L : Layout) :
    (construct_default_sharding_spec t L.device_mesh).dim_partition_dict = [] ∧
    (construct_default_sharding_spec t L.device_mesh).entire_shape = some t.shape ∧
    (construct_default_sharding_spec t L.device_mesh).device_mesh = L.device_mesh ∧
    DTensor.make t L =
      Except.map
        (fun sharded =>
          { local_tensor := sharded, data_type := t.dtype, entire_shape := t.shape,
            dist_layout :=
              if L.entire_shape = none then { L with entire_shape := some t.shape }
              else L })
        (apply_for_autoparallel_runtime t
          (construct_default_sharding_spec t L.device_mesh)
          (convert_layout_to_sharding_spec
            (if L.entire_shape = none then { L with entire_shape := some t.shape }
             else L))) := by
  refine ⟨rfl, rfl, rfl, ?_⟩
  unfold DTensor.make DTensor.apply_layout
  by_cases h : L.entire_shape = none <;>
    simp only [h, if_true, if_false, reduceIte] <;>
    (cases happ : apply_for_autoparallel_runtime t _ _ <;> simp [happ, Except.map])

/-- C8: if the layout passed to the constructor has no `entire_shape`, the
constructor resolves it to the wrapped tensor's shape and stores that
resolved layout (construction always succeeds in that case); a layout that
was constructed with a shape is stored unchanged. -/
theorem entire_shape_resolution (t : Tensor) (L : Layout) :
    (L.entire_shape = none →
      (DTensor.make t L).isOk = true ∧
      ∀ d : DTensor, DTensor.make t L = Except.ok d →
        d.dist_layout = { L with entire_shape := some t.shape }) ∧
    (∀ s : Shape, L.entire_shape = some s →
      ∀ d : DTensor, DTensor.make t L = Except.ok d → d.dist_layout = L) := by
  constructor
  · intro h
    unfold DTensor.make DTensor.apply_layout apply_for_autoparallel_runtime
    rw [if_pos h]
    dsimp only
    rw [reshard_ok_of_compat t (construct_default_sharding_spec t L.device_mesh)
          (convert_layout_to_sharding_spec { L with entire_shape := some t.shape })
          rfl rfl]
    constructor
    · rfl
    · intro d hd
      cases hd
      rfl
  · intro s hs
    unfold DTensor.make
    rw [if_neg (by simp [hs])]
    intro d hd
    dsimp only at hd
    cases happ : DTensor.apply_layout t L with
    | ok sharded => rw [happ] at hd; cases hd; rfl
    | error e => rw [happ] at hd; cases hd

theorem entire_shape_resolution_witness :
    (Layout.mk ⟨[]⟩ ⟨[]⟩ none 4).entire_shape = none ∧
    (DTensor.make (.base [3] 2 5 11) (Layout.mk ⟨[]⟩ ⟨[]⟩ none 4)).isOk = true ∧
    (DTensor.mk (.base [3] 2 5 11) 2 [3] (Layout.mk ⟨[]⟩ ⟨[]⟩ (some [3]) 4)).dist_layout
      = { Layout.mk ⟨[]⟩ ⟨[]⟩ none 4 with entire_shape := some (Tensor.base [3] 2 5 11).shape } ∧
    (DTensor.mk (.base [3] 2 5 11) 2 [3] (Layout.mk ⟨[]⟩ ⟨[]⟩ (some [3]) 4)).dist_layout
      = Layout.mk ⟨[]⟩ ⟨[]⟩ (some [3]) 4 :=
  ⟨rfl,
   ((entire_shape_resolution (.base [3] 2 5 11) (Layout.mk ⟨[]⟩ ⟨[]⟩ none 4)).1 rfl).1,
   ((entire_shape_resolution (.base [3] 2 5 11) (Layout.mk ⟨[]⟩ ⟨[]⟩ none 4)).1 rfl).2
     (DTensor.mk (.base [3] 2 5 11) 2 [3] (Layout.mk ⟨[]⟩ ⟨[]⟩ (some [3]) 4)) rfl,
   (entire_shape_resolution (.base [3] 2 5 11) (Layout.mk ⟨[]⟩ ⟨[]⟩ (some [3]) 4)).2
     [3] rfl
     (DTensor.mk (.base [3] 2 5 11) 2 [3] (Layout.mk ⟨[]⟩ ⟨[]⟩ (some [3]) 4)) rfl⟩

theorem distributeLoop_skip (fn : Option (String → Tensor → PyVal))
    (pre : List (String × ParamVal)) :
    ∀ (m : PyModule) (rest : List (String × ParamVal)),
      (∀ q ∈ pre, q.2.isDT = true) →
      distributeLoop fn m (pre ++ rest) = distributeLoop fn m rest := by
  induction pre with
  | nil => intro m rest _; rfl
  | cons q pre ih =>
      intro m rest h
      have hq : q.2.isDT = true := h q (List.mem_cons_self q pre)
      obtain ⟨n, p⟩ := q
      simp only [List.cons_append, distributeLoop, hq, if_true]
      exact ih m rest (fun r hr => h r (List.mem_cons_of_mem _ hr))

theorem named_parameters_flat (ps : List (String × ParamVal)) :
    (PyModule.mk ps .nil).named_parameters "" = ps := by
  simp [PyModule.named_parameters, SubModules.named_parameters, joinName]

theorem distributeLoop_flat (f : String → Tensor → Tensor)
    (todo : List (String × ParamVal)) :
    ∀ (ps : List (String × ParamVal)) (subs : SubModules),
      (∀ q ∈ todo, q.1.toList.contains '.' = false ∧ q.1 ≠ "") →
      distributeLoop (some (fun n t => PyVal.tensorV (f n t))) (.mk ps subs) todo =
        .ok (.mk (todo.foldl (flatUpd f) ps) subs) := by
  induction todo with
  | nil => intro ps subs _; rfl
  | cons q todo ih =>
      intro ps subs h
      obtain ⟨hdot, hne⟩ := h q (List.mem_cons_self q todo)
      have hrest : ∀ r ∈ todo, r.1.toList.contains '.' = false ∧ r.1 ≠ "" :=
        fun r hr => h r (List.mem_cons_of_mem _ hr)
      obtain ⟨n, p⟩ := q
      cases hp : p.isDT with
      | true =>
          simp only [distributeLoop, hp, if_true, List.foldl_cons, flatUpd]
          exact ih ps subs hrest
      | false =>
          have hd : n.toList.contains '.' = false := hdot
          simp only [distributeLoop, hp, Bool.false_eq_true, if_false, mkParameter,
                     PyModule.setParam, hd, if_neg hne, List.foldl_cons, flatUpd]
          exact ih _ subs hrest

theorem map_keep_of_ne (c : List (String × ParamVal)) (n : String) (v : ParamVal)
    (h : ∀ q ∈ c, q.1 ≠ n) :
    c.map (fun q => if q.1 = n then (n, v) else q) = c := by
  induction c with
  | nil => rfl
  | cons q c ih =>
      have hq := h q (List.mem_cons_self q c)
      simp [hq, ih (fun r hr => h r (List.mem_cons_of_mem _ hr))]

theorem setAssoc_cons_ne (c : List (String × ParamVal)) (n k : String)
    (v v' : ParamVal) (hkn : k ≠ n) :
    setAssoc ((n, v) :: c) k v' = (n, v) :: setAssoc c k v' := by
  have hnk : ¬(n = k) := fun h => hkn h.symm
  by_cases h : c.any (fun q => q.1 = k)
  · simp [setAssoc, List.any_cons, hnk, h]
  · simp [setAssoc, List.any_cons, hnk, h]

theorem setAssoc_head (c : List (String × ParamVal)) (n : String) (p v : ParamVal)
    (h : ∀ q ∈ c, q.1 ≠ n) :
    setAssoc ((n, p) :: c) n v = (n, v) :: c := by
  simp [setAssoc, List.any_cons, map_keep_of_ne c n v h]

theorem foldl_flatUpd_cons (f : String → Tensor → Tensor)
    (todo : List (String × ParamVal)) :
    ∀ (c : List (String × ParamVal)) (n : String) (v : ParamVal),
      (∀ q ∈ todo, q.1 ≠ n) →
      todo.foldl (flatUpd f) ((n, v) :: c) = (n, v) :: todo.foldl (flatUpd f) c := by
  induction todo with
  | nil => intros; rfl
  | cons r todo ih =>
      intro c n v h
      have hr : r.1 ≠ n := h r (List.mem_cons_self r todo)
      have hrest : ∀ q ∈ todo, q.1 ≠ n := fun q hq => h q (List.mem_cons_of_mem _ hq)
      cases hrt : r.2.isDT with
      | true =>
          simp only [List.foldl_cons, flatUpd, hrt, if_true]
          exact ih c n v hrest
      | false =>
          simp only [List.foldl_cons, flatUpd, hrt, Bool.false_eq_true, if_false,
                     setAssoc_cons_ne c n r.1 v _ hr]
          exact ih _ n v hrest

theorem foldl_flatUpd_map (f : String → Tensor → Tensor) :
    ∀ ps : List (String × ParamVal), (ps.map Prod.fst).Nodup →
      ps.foldl (flatUpd f) ps =
        ps.map (fun q => (q.1, if q.2.isDT then q.2 else ParamVal.plain (f q.1 q.2.data))) := by
  intro ps
  induction ps with
  | nil => intro _; rfl
  | cons q ps ih =>
      intro h
      rw [List.map_cons, List.nodup_cons] at h
      obtain ⟨hnot, hnd⟩ := h
      obtain ⟨n, p⟩ := q
      have hq : ∀ r ∈ ps, r.1 ≠ n := by
        intro r hr heq
        have hmem : r.1 ∈ ps.map Prod.fst := List.mem_map.mpr ⟨r, hr, rfl⟩
        rw [heq] at hmem
        exact hnot hmem
      cases hp : p.isDT with
      | true =>
          rw [List.foldl_cons,
              show flatUpd f ((n, p) :: ps) (n, p) = (n, p) :: ps from by simp [flatUpd, hp],
              foldl_flatUpd_cons f ps ps n p hq, ih hnd]
          simp [hp]
      | false =>
          rw [List.foldl_cons,
              show flatUpd f ((n, p) :: ps) (n, p)
                  = (n, ParamVal.plain (f n p.data)) :: ps from by
                simp [flatUpd, hp, setAssoc_head ps n p _ hq],
              foldl_flatUpd_cons f ps ps n _ hq, ih hnd]
          simp [hp]

/-- C2 (amended): for a module whose parameters all live at the top level
(dot-free, nonempty, pairwise distinct names), `distribute_module`
replaces each parameter that is not already a `DTensor` by a `Parameter`
wrapping exactly the value `partition_fn(name, param.data)` returned — it
builds no `DTensor` itself — and leaves `DTensor` parameters untouched. -/
theorem distribute_module_wraps_partition_fn_result
    (ps : List (String × ParamVal)) (f : String → Tensor → Tensor)
    (hnodup : (ps.map Prod.fst).Nodup)
    (hnames : ∀ q ∈ ps, q.1.toList.contains '.' = false ∧ q.1 ≠ "") :
    distribute_module (.mk ps .nil) (some (fun n t => PyVal.tensorV (f n t))) =
      .ok (.mk (ps.map (fun q =>
        (q.1, if q.2.isDT then q.2 else ParamVal.plain (f q.1 q.2.data)))) .nil) := by
  unfold distribute_module
  rw [named_parameters_flat, distributeLoop_flat f ps ps .nil hnames,
      foldl_flatUpd_map f ps hnodup]

theorem distribute_module_wraps_partition_fn_result_witness :
    distribute_module
        (.mk [("w", .plain (.base [2] 3 0 1)),
              ("b", .dt (DTensor.mk (.base [2] 3 0 2) 3 [2] (Layout.mk ⟨[]⟩ ⟨[]⟩ (some [2]) 0)))] .nil)
        (some (fun n t => PyVal.tensorV ((fun _ u => Tensor.cast 9 9 u) n t))) =
      .ok (.mk [("w", .plain (.cast 9 9 (.base [2] 3 0 1))),
                ("b", .dt (DTensor.mk (.base [2] 3 0 2) 3 [2] (Layout.mk ⟨[]⟩ ⟨[]⟩ (some [2]) 0)))] .nil) :=
  distribute_module_wraps_partition_fn_result
    [("w", .plain (.base [2] 3 0 1)),
     ("b", .dt (DTensor.mk (.base [2] 3 0 2) 3 [2] (Layout.mk ⟨[]⟩ ⟨[]⟩ (some [2]) 0)))]
    (fun _ u => Tensor.cast 9 9 u) (by decide) (by decide)

/-- C2 counterexample: with a `partition_fn` that returns a `Layout` — the
type the claim says it returns — the code raises `TypeError` inside
`torch.nn.Parameter` instead of building a `DTensor` from the parameter
value and that layout, while the behaviour the claim describes
(`distribute_module_claim`) succeeds and stores the built `DTensor`.  So
`distribute_module` does not replace parameters with DistributedTensors
built from `partition_fn`'s layout. -/
theorem distribute_module_does_not_build_dtensor_cex :
    distribute_module (.mk [("w", .plain (.base [4] 2 0 7))] .nil)
        (some (fun _ _ => PyVal.layoutV (Layout.mk ⟨[]⟩ ⟨[]⟩ none 0))) =
      .error .typeErrorBadParamData ∧
    distribute_module_claim (fun _ _ => Layout.mk ⟨[]⟩ ⟨[]⟩ none 0) ""
        (.mk [("w", .plain (.base [4] 2 0 7))] .nil) =
      .ok (.mk [("w", .dt (DTensor.mk (.base [4] 2 0 7) 2 [4]
                  (Layout.mk ⟨[]⟩ ⟨[]⟩ (some [4]) 0)))] .nil) :=
  ⟨rfl, rfl⟩

/-- C9 (amended): `distribute_module` does pass the dotted names produced
by `named_parameters` directly to `setattr` on the root module, but
because the assigned value is a `Parameter` and parameter registration
rejects names containing a dot, the call raises `KeyError` at the first
submodule-owned parameter that is not a `DTensor`; no dotted attribute is
attached and no submodule parameter is replaced. -/
theorem distribute_module_dotted_name_raises (m : PyModule)
    (pre post : List (String × ParamVal)) (n : String) (p : ParamVal)
    (f : String → Tensor → Tensor)
    (h : m.named_parameters "" = pre ++ (n, p) :: post)
    (hpre : ∀ q ∈ pre, q.2.isDT = true)
    (hp : p.isDT = false)
    (hdot : n.toList.contains '.' = true) :
    distribute_module m (some (fun k t => PyVal.tensorV (f k t))) =
      .error .keyError := by
  unfold distribute_module
  rw [h, distributeLoop_skip _ pre m ((n, p) :: post) hpre]
  have hd : '.' ∈ n.data := by simpa [String.toList] using hdot
  simp [distributeLoop, hp, mkParameter, PyModule.setParam, hd]

theorem distribute_module_dotted_name_raises_witness :
    distribute_module
        (.mk [("a", .dt (DTensor.mk (.base [2] 1 0 3) 1 [2] (Layout.mk ⟨[]⟩ ⟨[]⟩ (some [2]) 0)))]
          (.cons "m" (.mk [("w", .plain (.base [4] 2 0 7))] .nil) .nil))
        (some (fun _ t => PyVal.tensorV t)) = .error .keyError :=
  distribute_module_dotted_name_raises
    (.mk [("a", .dt (DTensor.mk (.base [2] 1 0 3) 1 [2] (Layout.mk ⟨[]⟩ ⟨[]⟩ (some [2]) 0)))]
      (.cons "m" (.mk [("w", .plain (.base [4] 2 0 7))] .nil) .nil))
    [("a", .dt (DTensor.mk (.base [2] 1 0 3) 1 [2] (Layout.mk ⟨[]⟩ ⟨[]⟩ (some [2]) 0)))]
    [] "m.w" (.plain (.base [4] 2 0 7)) (fun _ t => t)
    rfl (by decide) rfl rfl

/-- C9 counterexample: on a nested module with a single submodule-owned
parameter `s.w`, `distribute_module` raises `KeyError` (the dotted name is
rejected by parameter registration) rather than attaching an attribute
named `s.w` to the root module; the second conjunct shows the iteration
does produce the dotted name `s.w`. -/
theorem distribute_module_nested_keyerror_cex :
    distribute_module (.mk [] (.cons "s" (.mk [("w", .plain (.base [4] 2 0 7))] .nil) .nil))
        (some (fun _ t => PyVal.tensorV t)) = .error .keyError ∧
    (PyModule.mk [] (.cons "s" (.mk [("w", .plain (.base [4] 2 0 7))] .nil)
        .nil)).named_parameters "" = [("s.w", .plain (.base [4] 2 0 7))] :=
  ⟨rfl, rfl⟩

/-- C10: calling `distribute_module` with the default `partition_fn = None`
raises `TypeError` (`None` is not callable) at the first named parameter
that is not already a `DTensor` — parameters that are `DTensor`s are
skipped and never trigger the error; in particular, when every parameter
is already a `DTensor`, the call succeeds and returns the module
unchanged. -/
theorem distribute_module_none_fn_raises (m : PyModule) :
    (∀ (pre post : List (String × ParamVal)) (n : String) (p : ParamVal),
      m.named_parameters "" = pre ++ (n, p) :: post →
      (∀ q ∈ pre, q.2.isDT = true) → p.isDT = false →
      distribute_module m none = .error .noneNotCallable) ∧
    ((∀ q ∈ m.named_parameters "", q.2.isDT = true) →
      distribute_module m none = .ok m) := by
  constructor
  · intro pre post n p h hpre hp
    unfold distribute_module
    rw [h, distributeLoop_skip _ pre m ((n, p) :: post) hpre]
    simp [distributeLoop, hp]
  · intro hall
    unfold distribute_module
    have h2 := distributeLoop_skip none (m.named_parameters "") m [] hall
    rw [List.append_nil] at h2
    rw [h2]
    rfl

theorem distribute_module_none_fn_raises_witness :
    distribute_module (.mk [("w", .plain (.base [2] 1 0 4))] .nil) none
      = .error .noneNotCallable ∧
    distribute_module
        (.mk [("b", .dt (DTensor.mk (.base [2] 1 0 5) 1 [2] (Layout.mk ⟨[]⟩ ⟨[]⟩ (some [2]) 0)))] .nil)
        none
      = .ok (.mk [("b", .dt (DTensor.mk (.base [2] 1 0 5) 1 [2]
            (Layout.mk ⟨[]⟩ ⟨[]⟩ (some [2]) 0)))] .nil) :=
  ⟨(distribute_module_none_fn_raises (.mk [("w", .plain (.base [2] 1 0 4))] .nil)).1
      [] [] "w" (.plain (.base [2] 1 0 4)) rfl (by simp) rfl,
   (distribute_module_none_fn_raises
      (.mk [("b", .dt (DTensor.mk (.base [2] 1 0 5) 1 [2] (Layout.mk ⟨[]⟩ ⟨[]⟩ (some [2]) 0)))] .nil)).2
      (by decide)⟩
